import Mathlib

/--
Shallow embedding of the virtual-DOM core of `src/html.rs`.

The Rust type `Html<Msg>` is a tree of `Node`/`Text` values.  Platform event
payloads (`JsValue`) are abstracted as a type parameter `P`, application
messages as `Msg`.  Interior-mutable state (the per-node `Mailbox`, the live
DOM surface) is made explicit: `tick` and `sync` return the updated tree
together with the live-surface mutations they perform.
-/
inductive Mutation : Type where
  | SetTextContent (parent : String) (value : String)
deriving DecidableEq, Repr

/-- `Attribute` from `src/html.rs` (lines 29-39). -/
inductive Attribute : Type where
  | Pair (key : String) (value : String)
  | Toggle (key : String) (value : Bool)
deriving DecidableEq, Repr

/-- `Attribute::is_pair` (html.rs lines 42-47). -/
def Attribute.is_pair : Attribute → Bool
  | .Pair _ _ => true
  | _ => false

/-- `Attribute::key` (html.rs lines 48-53). -/
def Attribute.key : Attribute → String
  | .Pair k _ => k
  | .Toggle k _ => k

/-- `Attribute::value` (html.rs lines 54-59). -/
def Attribute.value : Attribute → Option String
  | .Pair _ v => some v
  | .Toggle _ _ => none

set_option linter.dupNamespace false

/-- `Style` from `src/html.rs` (lines 67-74); a nested inductive, pseudo-class
groups carry a list of styles. -/
inductive Style : Type where
  | Style (property : String) (value : String)
  | PseudoClass (name : String) (body : List Style)

/-- `Handler<Msg>` (html.rs lines 127-131): the application function
`rawEvent → Msg`.  The platform callback reference (`js_ref`) has no
observable behaviour in the embedded operations and is omitted. -/
structure Handler (Msg P : Type) : Type where
  fn : P → Msg

/-- `Handler::eval` (html.rs lines 133-137). -/
def Handler.eval (h : Handler Msg P) (arg : P) : Msg :=
  h.fn arg

/-- `Mailbox` (html.rs lines 158-174): a FIFO queue of
`(eventName, rawPayload)` pairs.  The `Rc<RefCell<VecDeque>>` cell is made
explicit: operations return the new queue state. -/
abbrev Mailbox (P : Type) : Type := List (String × P)

/-- `Mailbox::insert` (html.rs lines 168-170): push_back. -/
def Mailbox.insert (m : Mailbox P) (event_name : String) (value : P) :
    Mailbox P :=
  m ++ [(event_name, value)]

/-- `Mailbox::remove` (html.rs lines 171-173): pop_front, returning the
popped entry (if any) and the remaining queue. -/
def Mailbox.remove (m : Mailbox P) : Option ((String × P) × Mailbox P) :=
  match m with
  | [] => none
  | x :: rest => some (x, rest)

/-- `Html<Msg>` (html.rs lines 185-199).  The `events` BTreeMap is embedded
as an association list looked up by key. -/
inductive Html (Msg P : Type) : Type where
  | Node (tag : String) (id : String) (attributes : List Attribute)
      (styling : List Style) (events : List (String × Handler Msg P))
      (mailbox : Mailbox P) (children : List (Html Msg P))
  | Text (value : String)

/-- `Html::id` (html.rs lines 354-359). -/
def Html.idOf : Html Msg P → Option String
  | .Node _ i _ _ _ _ _ => some i
  | .Text _ => none

/-- `Html::lookup_handler` (html.rs lines 382-392): `events.get(key)`. -/
def lookup_handler : Html Msg P → String → Option (Handler Msg P)
  | .Node _ _ _ _ events _ _, key => List.lookup key events
  | .Text _, _ => none

mutual

/-- `Html::tick` (html.rs lines 296-323).  Children are dispatched first
(depth-first, post-order, left-to-right), then at most one entry is popped
from the current node's mailbox; if a handler is registered under the popped
event name, its message is appended.  Returns the produced messages and the
tree with the drained mailboxes. -/
def tick : Html Msg P → List Msg × Html Msg P
  | .Text v => ([], .Text v)
  | .Node tag id attrs styling events mailbox children =>
    let r := tickChildren children
    match Mailbox.remove mailbox with
    | none => (r.1, .Node tag id attrs styling events mailbox r.2)
    | some ((name, value), rest) =>
      match lookup_handler (Html.Node tag id attrs styling events mailbox children) name with
      | none => (r.1, .Node tag id attrs styling events rest r.2)
      | some h =>
        (r.1 ++ [h.eval value], .Node tag id attrs styling events rest r.2)

/-- The `for child in children { messages.append(&mut child.tick()) }` loop
inside `Html::tick`. -/
def tickChildren : List (Html Msg P) → List Msg × List (Html Msg P)
  | [] => ([], [])
  | c :: cs =>
    let rc := tick c
    let rcs := tickChildren cs
    (rc.1 ++ rcs.1, rc.2 :: rcs.2)

end

mutual

/-- `Html::sync` (html.rs lines 329-348).  The live parent element is
identified by its id string; the function returns the mutated old tree and
the list of live-surface mutations performed, in order.  Node vs Node
recurses pairwise over children only when the child counts agree, passing
the old node's own live element as the children's parent; Text vs Text
overwrites the parent's text content when the values differ; any other
shape combination is a no-op. -/
def sync : Html Msg P → Html Msg P → String → Html Msg P × List Mutation
  | .Node tag id attrs styling events mailbox cs1,
    .Node _ _ _ _ _ _ cs2, _ =>
    if cs1.length = cs2.length then
      let r := syncChildren cs1 cs2 id
      (.Node tag id attrs styling events mailbox r.1, r.2)
    else
      (.Node tag id attrs styling events mailbox cs1, [])
  | .Text v1, .Text v2, parent_ref =>
    if v1 ≠ v2 then (.Text v2, [.SetTextContent parent_ref v2])
    else (.Text v1, [])
  | old, _, _ => (old, [])

/-- The `cs1.iter_mut().zip(cs2.iter_mut())` loop inside `Html::sync`:
pairwise positional recursion; unpaired trailing old children are left
untouched (the zip stops at the shorter list). -/
def syncChildren : List (Html Msg P) → List (Html Msg P) → String →
    List (Html Msg P) × List Mutation
  | c1 :: cs1, c2 :: cs2, parent_ref =>
    let rc := sync c1 c2 parent_ref
    let rcs := syncChildren cs1 cs2 parent_ref
    (rc.1 :: rcs.1, rc.2 ++ rcs.2)
  | cs1, _, _ => (cs1, [])

end

/-- `Html::render_attributes` (html.rs lines 205-228): attributes whose key
is `"id"` are filtered out; a `Pair` is printed `key="value"`, any other
attribute (a `Toggle`, whatever its boolean) is printed as its bare key;
the results are joined with single spaces.  Returns `none` for `Text`. -/
def render_attributes : Html Msg P → Option String
  | .Node _ _ attributes _ _ _ _ =>
    some (String.intercalate " "
      ((attributes.filter (fun atr => atr.key != "id")).map
        (fun atr =>
          if atr.is_pair then atr.key ++ "=\"" ++ atr.value.get! ++ "\""
          else atr.key)))
  | .Text _ => none

mutual

/-- `Html::render` (html.rs lines 426-456), restricted to the markup string
it returns.  (The `render_css` side effect writes scoped CSS rules to the
style mount; it does not contribute to the returned markup and no claim
concerns it.)  Note the id is printed unquoted, and since
`render_attributes` is `some` for every `Node`, the attribute section —
possibly empty — is always present, preceded by a space. -/
def render : Html Msg P → String
  | .Node tag id attrs styling events mailbox children =>
    let attributes :=
      render_attributes (Html.Node tag id attrs styling events mailbox children)
    let cs := String.intercalate "" (renderList children)
    match attributes with
    | none => "<" ++ tag ++ " id=" ++ id ++ ">" ++ cs ++ "</" ++ tag ++ ">"
    | some a =>
      "<" ++ tag ++ " id=" ++ id ++ " " ++ a ++ ">" ++ cs ++ "</" ++ tag ++ ">"
  | .Text v => v

/-- The `children.iter().map(|c| c.render(..)).collect::<Vec<_>>()` loop
inside `Html::render`; the results are joined with `""`. -/
def renderList : List (Html Msg P) → List String
  | [] => []
  | c :: cs => render c :: renderList cs

end

/-- `Html::new_node` (html.rs lines 411-421).  The id is
`format!("_{}", rand::random::<u16>())`; the random draw is an explicit
input `r`, reduced mod 2^16 as the `u16` cast demands. -/
def new_node (tag : String) (r : Nat) : Html Msg P :=
  Html.Node tag ("_" ++ toString (r % 65536)) [] [] [] [] []

/-- `Html::add_child` (html.rs lines 502-509): pushes a child onto a
`Node`'s children; panics (here: `none`) on a `Text`. -/
def add_child : Html Msg P → Html Msg P → Option (Html Msg P)
  | .Node tag id attrs styling events mailbox children, child =>
    some (.Node tag id attrs styling events mailbox (children ++ [child]))
  | .Text _, _ => none

mutual

/-- All node ids occurring in a tree, in preorder. -/
def nodeIds : Html Msg P → List String
  | .Text _ => []
  | .Node _ i _ _ _ _ cs => i :: nodeIdsList cs

/-- `nodeIds` over a list of children, left to right. -/
def nodeIdsList : List (Html Msg P) → List String
  | [] => []
  | c :: cs => nodeIds c ++ nodeIdsList cs

end

mutual

/-- Characterization used for the frame condition of `tick`: the same tree
with every node's mailbox replaced by its tail (one entry popped from the
front when nonempty) and everything else — tag, id, attributes, styling,
handler map, child structure — untouched. -/
def drainOne : Html Msg P → Html Msg P
  | .Text v => .Text v
  | .Node tag id attrs styling events mailbox cs =>
    .Node tag id attrs styling events mailbox.tail (drainOneList cs)

/-- `drainOne` over a list of children. -/
def drainOneList : List (Html Msg P) → List (Html Msg P)
  | [] => []
  | c :: cs => drainOne c :: drainOneList cs

end

mutual

/-- All mailboxes in a tree, in preorder. -/
def mailboxes : Html Msg P → List (Mailbox P)
  | .Text _ => []
  | .Node _ _ _ _ _ m cs => m :: mailboxesList cs

/-- `mailboxes` over a list of children, left to right. -/
def mailboxesList : List (Html Msg P) → List (Mailbox P)
  | [] => []
  | c :: cs => mailboxes c ++ mailboxesList cs

end

/-- The relation "the two trees are identical except that exactly one `Text`
leaf carries a different value": either the trees are that differing leaf,
or they are nodes agreeing in every field whose child lists agree except at
one position, where the children are again so related. -/
inductive DiffOneText : Html Msg P → Html Msg P → Prop where
  | text {v1 v2 : String} : v1 ≠ v2 →
      DiffOneText (Html.Text v1) (Html.Text v2)
  | here {tag id : String} {attrs : List Attribute} {styling : List Style}
      {events : List (String × Handler Msg P)} {mailbox : Mailbox P}
      {c1 c2 : Html Msg P} {cs : List (Html Msg P)} :
      DiffOneText c1 c2 →
      DiffOneText (Html.Node tag id attrs styling events mailbox (c1 :: cs))
        (Html.Node tag id attrs styling events mailbox (c2 :: cs))
  | there {tag id : String} {attrs : List Attribute} {styling : List Style}
      {events : List (String × Handler Msg P)} {mailbox : Mailbox P}
      {c : Html Msg P} {cs1 cs2 : List (Html Msg P)} :
      DiffOneText (Html.Node tag id attrs styling events mailbox cs1)
        (Html.Node tag id attrs styling events mailbox cs2) →
      DiffOneText (Html.Node tag id attrs styling events mailbox (c :: cs1))
        (Html.Node tag id attrs styling events mailbox (c :: cs2))

/-- Child count of a tree (0 for `Text`); used to relate `DiffOneText` trees. -/
def childCount : Html Msg P → Nat
  | .Text _ => 0
  | .Node _ _ _ _ _ _ cs => cs.length

/-- Attribute text asserted by the amended rendering claim, written from the
amended spec words: walking the attribute list in order, any attribute keyed
`"id"` is skipped; a `Pair` contributes `key="value"`; a `Toggle` contributes
its bare key regardless of its boolean. -/
def visibleAttributesSpec : List Attribute → List String
  | [] => []
  | .Pair k v :: rest =>
    if k == "id" then visibleAttributesSpec rest
    else (k ++ "=\"" ++ v ++ "\"") :: visibleAttributesSpec rest
  | .Toggle k _ :: rest =>
    if k == "id" then visibleAttributesSpec rest
    else k :: visibleAttributesSpec rest

/-- Attribute text asserted by the claim as stated: every `Pair` is emitted
as `key="value"`, and a `Toggle` is emitted as its bare key iff its boolean
is true (a false `Toggle` contributes nothing); no attribute is skipped. -/
def renderAttributesClaim : List Attribute → List String
  | [] => []
  | .Pair k v :: rest => (k ++ "=\"" ++ v ++ "\"") :: renderAttributesClaim rest
  | .Toggle k b :: rest =>
    if b then k :: renderAttributesClaim rest else renderAttributesClaim rest

mutual

/-- Markup template asserted by the claim as stated:
`<tag id="{id}" {attrs}>{children}</tag>` with the synthesized id attribute
QUOTED, explicit attributes keyed `"id"` never emitted. -/
def renderedMarkupClaim : Html Msg P → String
  | .Text v => v
  | .Node tag id attrs _ _ _ cs =>
    "<" ++ tag ++ " id=\"" ++ id ++ "\" "
      ++ String.intercalate " " (visibleAttributesSpec attrs) ++ ">"
      ++ String.intercalate "" (renderedMarkupClaimList cs)
      ++ "</" ++ tag ++ ">"

/-- `renderedMarkupClaim` over a child list, concatenated in order. -/
def renderedMarkupClaimList : List (Html Msg P) → List String
  | [] => []
  | c :: cs => renderedMarkupClaim c :: renderedMarkupClaimList cs

end

mutual

/-- Markup template of the amended claim:
`<tag id={id} {attrs}>{children}</tag>` with the synthesized id attribute
printed UNQUOTED, the (possibly empty) attribute section always present and
preceded by one space, and explicit attributes keyed `"id"` never emitted. -/
def renderedMarkupAmended : Html Msg P → String
  | .Text v => v
  | .Node tag id attrs _ _ _ cs =>
    "<" ++ tag ++ " id=" ++ id ++ " "
      ++ String.intercalate " " (visibleAttributesSpec attrs) ++ ">"
      ++ String.intercalate "" (renderedMarkupAmendedList cs)
      ++ "</" ++ tag ++ ">"

/-- `renderedMarkupAmended` over a child list, concatenated in order. -/
def renderedMarkupAmendedList : List (Html Msg P) → List String
  | [] => []
  | c :: cs => renderedMarkupAmended c :: renderedMarkupAmendedList cs

end

mutual

theorem sync_self (t : Html Msg P) (p : String) : sync t t p = (t, []) := by
  cases t with
  | Text v => simp [sync]
  | Node tag id attrs styling events mailbox cs =>
    simp [sync, syncChildren_self cs id]

theorem syncChildren_self (cs : List (Html Msg P)) (p : String) :
    syncChildren cs cs p = (cs, []) := by
  cases cs with
  | nil => simp [syncChildren]
  | cons c cs => simp [syncChildren, sync_self c p, syncChildren_self cs p]

end

mutual

theorem tick_snd (t : Html Msg P) : (tick t).2 = drainOne t := by
  cases t with
  | Text v => simp [tick, drainOne]
  | Node tag id attrs styling events mailbox cs =>
    cases mailbox with
    | nil => simp [tick, drainOne, Mailbox.remove, tickChildren_snd cs]
    | cons x rest =>
      obtain ⟨name, value⟩ := x
      cases hl : List.lookup name events with
      | none =>
        simp [tick, drainOne, Mailbox.remove, lookup_handler, hl,
          tickChildren_snd cs]
      | some h =>
        simp [tick, drainOne, Mailbox.remove, lookup_handler, hl,
          tickChildren_snd cs]

theorem tickChildren_snd (cs : List (Html Msg P)) :
    (tickChildren cs).2 = drainOneList cs := by
  cases cs with
  | nil => simp [tickChildren, drainOneList]
  | cons c cs =>
    simp [tickChildren, drainOneList, tick_snd c, tickChildren_snd cs]

end

theorem tickChildren_fst (cs : List (Html Msg P)) :
    (tickChildren cs).1 = (cs.map (fun c => (tick c).1)).flatten := by
  induction cs with
  | nil => simp [tickChildren]
  | cons c cs ih => simp [tickChildren, ih]

mutual

theorem mailboxes_drainOne (t : Html Msg P) :
    mailboxes (drainOne t) = (mailboxes t).map List.tail := by
  cases t with
  | Text v => simp [drainOne, mailboxes]
  | Node tag id attrs styling events mailbox cs =>
    simp [drainOne, mailboxes, mailboxesList_drainOneList cs]

theorem mailboxesList_drainOneList (cs : List (Html Msg P)) :
    mailboxesList (drainOneList cs) = (mailboxesList cs).map List.tail := by
  cases cs with
  | nil => simp [drainOneList, mailboxesList]
  | cons c cs =>
    simp [drainOneList, mailboxesList, mailboxes_drainOne c,
      mailboxesList_drainOneList cs]

end

mutual

theorem sync_nodeIds (old new : Html Msg P) (p : String) :
    nodeIds ((sync old new p).1) = nodeIds old := by
  cases old with
  | Text v1 =>
    cases new with
    | Text v2 =>
      by_cases h : v1 = v2 <;> simp [sync, h, nodeIds]
    | Node t2 i2 a2 s2 e2 m2 cs2 => simp [sync, nodeIds]
  | Node tag id attrs styling events mailbox cs1 =>
    cases new with
    | Text v2 => simp [sync, nodeIds]
    | Node t2 i2 a2 s2 e2 m2 cs2 =>
      by_cases h : cs1.length = cs2.length
      · simp [sync, h, nodeIds, syncChildren_nodeIds cs1 cs2 id]
      · simp [sync, h, nodeIds]

theorem syncChildren_nodeIds (cs1 cs2 : List (Html Msg P)) (p : String) :
    nodeIdsList ((syncChildren cs1 cs2 p).1) = nodeIdsList cs1 := by
  cases cs1 with
  | nil => simp [syncChildren]
  | cons c1 cs1 =>
    cases cs2 with
    | nil => simp [syncChildren]
    | cons c2 cs2 =>
      simp [syncChildren, nodeIdsList, sync_nodeIds c1 c2 p,
        syncChildren_nodeIds cs1 cs2 p]

end

theorem diffOneText_childCount {t1 t2 : Html Msg P} (h : DiffOneText t1 t2) :
    childCount t1 = childCount t2 := by
  induction h with
  | text _ => rfl
  | here _ _ => simp [childCount]
  | there _ ih => simp [childCount] at ih ⊢; omega

theorem diffOneText_sync_singleton {t1 t2 : Html Msg P} (p : String)
    (h : DiffOneText t1 t2) :
    ∃ q w, (sync t1 t2 p).2 = [Mutation.SetTextContent q w] := by
  induction h generalizing p with
  | @text v1 v2 hne => exact ⟨p, v2, by simp [sync, hne]⟩
  | @here tag idn attrs styling events mailbox c1 c2 cs hd ih =>
    obtain ⟨q, w, hq⟩ := ih idn
    exact ⟨q, w, by simp [sync, syncChildren, syncChildren_self, hq]⟩
  | @there tag idn attrs styling events mailbox c cs1 cs2 hd ih =>
    obtain ⟨q, w, hq⟩ := ih idn
    have hlen : cs1.length = cs2.length := by
      have := diffOneText_childCount hd
      simpa [childCount] using this
    simp [sync, hlen] at hq
    exact ⟨q, w, by simp [sync, hlen, syncChildren, sync_self, hq]⟩

theorem Attribute.key_pair (k v : String) : (Attribute.Pair k v).key = k := rfl

theorem Attribute.key_toggle (k : String) (b : Bool) :
    (Attribute.Toggle k b).key = k := rfl

theorem Attribute.is_pair_pair (k v : String) :
    (Attribute.Pair k v).is_pair = true := rfl

theorem Attribute.is_pair_toggle (k : String) (b : Bool) :
    (Attribute.Toggle k b).is_pair = false := rfl

theorem Attribute.value_pair (k v : String) :
    (Attribute.Pair k v).value = some v := rfl

theorem filter_map_attributes_eq (attrs : List Attribute) :
    (attrs.filter (fun atr => atr.key != "id")).map
      (fun atr =>
        if atr.is_pair then atr.key ++ "=\"" ++ atr.value.get! ++ "\""
        else atr.key)
      = visibleAttributesSpec attrs := by
  induction attrs with
  | nil => simp [visibleAttributesSpec]
  | cons a rest ih =>
    cases a with
    | Pair k v =>
      by_cases h : k = "id" <;>
        simp [visibleAttributesSpec, Attribute.key_pair, Attribute.is_pair_pair,
          Attribute.value_pair, h, List.filter_cons, ih]
    | Toggle k b =>
      by_cases h : k = "id" <;>
        simp [visibleAttributesSpec, Attribute.key_toggle,
          Attribute.is_pair_toggle, h, List.filter_cons, ih]

theorem render_attributes_node_eq (tag id : String) (attrs : List Attribute)
    (styling : List Style) (events : List (String × Handler Msg P))
    (mailbox : Mailbox P) (cs : List (Html Msg P)) :
    render_attributes (Html.Node tag id attrs styling events mailbox cs)
      = some (String.intercalate " " (visibleAttributesSpec attrs)) := by
  simp [render_attributes, filter_map_attributes_eq]

mutual

theorem render_eq_amended (t : Html Msg P) :
    render t = renderedMarkupAmended t := by
  cases t with
  | Text v => simp [render, renderedMarkupAmended]
  | Node tag id attrs styling events mailbox cs =>
    simp [render, renderedMarkupAmended, render_attributes,
      filter_map_attributes_eq, renderList_eq_amended cs]

theorem renderList_eq_amended (cs : List (Html Msg P)) :
    renderList cs = renderedMarkupAmendedList cs := by
  cases cs with
  | nil => simp [renderList, renderedMarkupAmendedList]
  | cons c cs =>
    simp [renderList, renderedMarkupAmendedList, render_eq_amended c,
      renderList_eq_amended cs]

end

/-- C1: syncing any tree against an identical clone of itself performs zero
live-surface mutations and leaves the stored old tree unchanged, in both the
Text-equal and Node-equal cases. -/
theorem sync_clone_noop (t : Html Msg P) (p : String) : sync t t p = (t, []) :=
  sync_self t p

/-- C2: when the old and new `Node` child lists have different lengths,
`sync` performs no mutation for that node's children: the old tree is
returned unchanged and no live-surface mutation is emitted. -/
theorem sync_child_count_mismatch_noop
    (tag1 id1 : String) (a1 : List Attribute) (s1 : List Style)
    (e1 : List (String × Handler Msg P)) (m1 : Mailbox P)
    (cs1 : List (Html Msg P))
    (tag2 id2 : String) (a2 : List Attribute) (s2 : List Style)
    (e2 : List (String × Handler Msg P)) (m2 : Mailbox P)
    (cs2 : List (Html Msg P)) (p : String)
    (h : cs1.length ≠ cs2.length) :
    sync (Html.Node tag1 id1 a1 s1 e1 m1 cs1)
        (Html.Node tag2 id2 a2 s2 e2 m2 cs2) p
      = (Html.Node tag1 id1 a1 s1 e1 m1 cs1, []) := by
  simp [sync, h]

/-- Witness for C2: a 2-child node synced against a 3-child replacement is a
complete no-op. -/
theorem sync_child_count_mismatch_noop_witness :
    ([Html.Text "a", Html.Text "b"] : List (Html Nat Nat)).length ≠
      ([Html.Text "x", Html.Text "y", Html.Text "z"] :
        List (Html Nat Nat)).length ∧
    sync (Html.Node "div" "_1" [] [] [] [] [Html.Text "a", Html.Text "b"] :
          Html Nat Nat)
        (Html.Node "div" "_1" [] [] [] []
          [Html.Text "x", Html.Text "y", Html.Text "z"]) "root"
      = (Html.Node "div" "_1" [] [] [] [] [Html.Text "a", Html.Text "b"],
         ([] : List Mutation)) :=
  ⟨by decide,
   sync_child_count_mismatch_noop _ _ _ _ _ _ _ _ _ _ _ _ _ _ _ (by decide)⟩

/-- C3: for trees differing only in the value of one `Text` leaf, `sync`
performs exactly one text-content mutation on the live surface and nothing
else. -/
theorem diff_one_text_sync_one_mutation (t1 t2 : Html Msg P) (p : String)
    (h : DiffOneText t1 t2) :
    ∃ q w, (sync t1 t2 p).2 = [Mutation.SetTextContent q w] :=
  diffOneText_sync_singleton p h

/-- Witness for C3: two one-child trees differing only in the text leaf
value produce a single text-content mutation. -/
theorem diff_one_text_sync_one_mutation_witness :
    DiffOneText
      (Html.Node "div" "_1" [] [] ([] : List (String × Handler Nat Nat)) []
        [Html.Text "a"])
      (Html.Node "div" "_1" [] [] [] [] [Html.Text "b"]) ∧
    ∃ q w,
      (sync
        (Html.Node "div" "_1" [] [] ([] : List (String × Handler Nat Nat)) []
          [Html.Text "a"] : Html Nat Nat)
        (Html.Node "div" "_1" [] [] [] [] [Html.Text "b"]) "root").2
        = [Mutation.SetTextContent q w] :=
  ⟨DiffOneText.here (DiffOneText.text (by decide)),
   diff_one_text_sync_one_mutation _ _ _
     (DiffOneText.here (DiffOneText.text (by decide)))⟩

/-- C4 counterexample: id uniqueness is not guaranteed by the code.
`new_node` draws its id from a random `u16`
(`format!("_{}", rand::random::<u16>())`); two construction calls whose
random draws coincide (here both 5) yield a tree whose two nodes share the
id `"_5"`, so the ids of this tree are not pairwise distinct. -/
theorem new_node_id_collision :
    ¬ (nodeIds (((add_child (new_node "div" 5) (new_node "span" 5)) :
        Option (Html Nat Nat)).getD (Html.Text ""))).Nodup := by
  decide

/-- C4 amended: the stability half holds — `sync` never changes any node's
id (the multiset of ids, in preorder, is preserved exactly); the uniqueness
half fails because ids are random 16-bit tokens assigned at construction,
which can collide. -/
theorem sync_preserves_node_ids (old new : Html Msg P) (p : String) :
    nodeIds ((sync old new p).1) = nodeIds old :=
  sync_nodeIds old new p

/-- C5: `tick` drains children strictly before the parent: on a node whose
mailbox head names a registered handler, the returned messages are exactly
the concatenation of the children's messages (depth-first, left-to-right)
followed by the parent's own message. -/
theorem tick_children_before_parent
    (tag id : String) (attrs : List Attribute) (styling : List Style)
    (events : List (String × Handler Msg P)) (name : String) (v : P)
    (rest : Mailbox P) (cs : List (Html Msg P)) (h : Handler Msg P)
    (hl : List.lookup name events = some h) :
    (tick (Html.Node tag id attrs styling events ((name, v) :: rest) cs)).1
      = (cs.map (fun c => (tick c).1)).flatten ++ [h.eval v] := by
  simp [tick, Mailbox.remove, lookup_handler, hl, tickChildren_fst]

/-- Witness for C5: a depth-2 tree with pending entries at both levels
delivers the child's message before the parent's. -/
theorem tick_children_before_parent_witness :
    List.lookup "click"
        [("click", (Handler.mk (fun v => v + 1) : Handler Nat Nat))]
      = some (Handler.mk (fun v => v + 1)) ∧
    (tick (Html.Node "div" "_p" [] []
        [("click", Handler.mk (fun v => v + 1))] [("click", 100)]
        [Html.Node "span" "_c" [] []
          [("press", (Handler.mk (fun v => v * 2) : Handler Nat Nat))]
          [("press", 3)] []])).1
      = (([Html.Node "span" "_c" [] []
          [("press", (Handler.mk (fun v => v * 2) : Handler Nat Nat))]
          [("press", 3)] []]).map (fun c => (tick c).1)).flatten
        ++ [(Handler.mk (fun v => v + 1) : Handler Nat Nat).eval 100] :=
  ⟨rfl, tick_children_before_parent _ _ _ _ _ _ _ _ _ _ rfl⟩

/-- C6: one `tick` removes at most one entry from each node's mailbox, taken
from the front: after `tick`, every mailbox in the tree is exactly the tail
of what it was, so any remaining queued entries stay for a later tick. -/
theorem tick_pops_at_most_one_per_mailbox (t : Html Msg P) :
    mailboxes ((tick t).2) = (mailboxes t).map List.tail := by
  rw [tick_snd, mailboxes_drainOne]

/-- C7: a drained mailbox entry whose event name has no handler registered
in the current tree is silently discarded: the entry is popped, no message
is produced for it, and the children's dispatch results are untouched. -/
theorem tick_dispatch_miss_discarded
    (tag id : String) (attrs : List Attribute) (styling : List Style)
    (events : List (String × Handler Msg P)) (name : String) (v : P)
    (rest : Mailbox P) (cs : List (Html Msg P))
    (hl : List.lookup name events = none) :
    tick (Html.Node tag id attrs styling events ((name, v) :: rest) cs)
      = ((tickChildren cs).1,
         Html.Node tag id attrs styling events rest (tickChildren cs).2) := by
  simp [tick, Mailbox.remove, lookup_handler, hl]

/-- Witness for C7: a node listening only for "click" drains a "hover"
entry without producing a message, while its child's message still goes
through. -/
theorem tick_dispatch_miss_discarded_witness :
    List.lookup "hover"
        [("click", (Handler.mk (fun v => v + 1) : Handler Nat Nat))]
      = none ∧
    tick (Html.Node "div" "_p" [] []
        [("click", (Handler.mk (fun v => v + 1) : Handler Nat Nat))]
        [("hover", 100)]
        [Html.Node "span" "_c" [] []
          [("press", (Handler.mk (fun v => v * 2) : Handler Nat Nat))]
          [("press", 3)] []])
      = ((tickChildren [Html.Node "span" "_c" [] []
            [("press", (Handler.mk (fun v => v * 2) : Handler Nat Nat))]
            [("press", 3)] []]).1,
         Html.Node "div" "_p" [] []
           [("click", (Handler.mk (fun v => v + 1) : Handler Nat Nat))] []
           (tickChildren [Html.Node "span" "_c" [] []
             [("press", (Handler.mk (fun v => v * 2) : Handler Nat Nat))]
             [("press", 3)] []]).2) :=
  ⟨rfl, tick_dispatch_miss_discarded _ _ _ _ _ _ _ _ _ rfl⟩

/-- C8 counterexample: at the explicit attribute list
`[Pair "id" "x", Toggle "checked" false]` the claim predicts the rendered
attribute text `id="x"` (every `Pair` emitted, a false `Toggle` contributing
nothing), but `render_attributes` produces `checked`: the `Pair` keyed
`"id"` is filtered out and the `Toggle` is emitted although its boolean is
false. -/
theorem render_attributes_claim_refuted :
    render_attributes (Html.Node "div" "_1"
        [Attribute.Pair "id" "x", Attribute.Toggle "checked" false]
        [] ([] : List (String × Handler Nat Nat)) [] [])
      ≠ some (String.intercalate " "
        (renderAttributesClaim
          [Attribute.Pair "id" "x", Attribute.Toggle "checked" false])) := by
  decide

/-- C8 amended: when a `Node`'s attributes are rendered, every attribute
keyed `"id"` is skipped; every other `Pair` is emitted as `key="value"`
and every other `Toggle` is emitted as its bare key regardless of its
boolean (a false `Toggle` still contributes its key). -/
theorem render_attributes_amended
    (tag id : String) (attrs : List Attribute) (styling : List Style)
    (events : List (String × Handler Msg P)) (mailbox : Mailbox P)
    (cs : List (Html Msg P)) :
    render_attributes (Html.Node tag id attrs styling events mailbox cs)
      = some (String.intercalate " " (visibleAttributesSpec attrs)) :=
  render_attributes_node_eq tag id attrs styling events mailbox cs

/-- C9 counterexample: at the node `<div id=_1 class="c">` the claim
predicts the markup `<div id="_1" class="c"></div>` with the synthesized id
attribute quoted, but `render` prints the id unquoted
(`format!("<{tag} id={id} {attributes}>...")`). -/
theorem render_quoted_id_refuted :
    render (Html.Node "div" "_1" [Attribute.Pair "class" "c"] []
        ([] : List (String × Handler Nat Nat)) [] [])
      ≠ renderedMarkupClaim (Html.Node "div" "_1" [Attribute.Pair "class" "c"]
        [] ([] : List (String × Handler Nat Nat)) [] []) := by
  decide

/-- C9 amended: every node serializes to
`<tag id={id} {attr1="v1" ...}>{children}</tag>` with the id attribute
synthesized, unquoted, from the node's id field, the (possibly empty)
explicit-attribute section always preceded by one space, and any attribute
named `"id"` in the explicit list never emitted, so the id attribute appears
exactly once. -/
theorem render_markup_amended (t : Html Msg P) :
    render t = renderedMarkupAmended t :=
  render_eq_amended t

/-- C10: `tick` leaves the tree unchanged apart from its mailboxes: the
resulting tree is exactly the input tree with each node's mailbox replaced
by its tail — tag, id, attributes, styling, handler map and child structure
are all preserved. -/
theorem tick_frame_condition (t : Html Msg P) :
    (tick t).2 = drainOne t :=
  tick_snd t
